import Mathlib

/-!
Shallow embedding of the multi-method authentication subsystem of
`vselena_back` (src/src/auth/services/github-auth.service.ts, classes
`GitHubAuthService` and `MultiAuthService`).

Modelling conventions:
- TypeORM repositories become lists inside a `DB` record; `findOne(where)`
  becomes `List.find?` with the predicate given by the `where` condition,
  and `save` of an already-found row becomes an in-place update of the
  first row matching the lookup predicate (`updateFirst`).
- `Date` values are natural numbers (seconds); "10 minutes" is 600,
  "24 hours" is 86400.
- Nullable columns are `Option`; JavaScript truthiness of a string value
  (`if (s)`) is modelled as `s ≠ ""` on the `some` branch.
- Randomly generated code digits are passed in as an explicit argument.
-/

namespace VselenaAuth

/-- Auth methods, from `AuthMethodType` as used in the service. -/
inductive AuthMethodType
  | EMAIL
  | PHONE_WHATSAPP
  | PHONE_TELEGRAM
  | GITHUB
  | GOSUSLUGI
  | VKONTAKTE
deriving DecidableEq

/-- `MfaSettings` interface: enabled flag, methods, backup codes. -/
structure MfaSettings where
  enabled : Bool
  methods : List String
  backupCodes : List String
  backupCodesUsed : List String
  requiredMethods : Nat
deriving DecidableEq

/-- The `User` entity, restricted to the columns the embedded services read
or write. Nullable columns are `Option String`. -/
structure User where
  id : Nat
  email : Option String := none
  phone : Option String := none
  githubId : Option String := none
  gosuslugiId : Option String := none
  vkontakteId : Option String := none
  githubUsername : Option String := none
  passwordHash : Option String := none
  emailVerified : Bool := false
  phoneVerified : Bool := false
  githubVerified : Bool := false
  gosuslugiVerified : Bool := false
  vkontakteVerified : Bool := false
  primaryAuthMethod : AuthMethodType := AuthMethodType.EMAIL
  availableAuthMethods : List AuthMethodType := []
  mfaSettings : Option MfaSettings := none
deriving DecidableEq

/-- `additionalData` payload: only `.username` is ever read (GitHub case of
`createUser`). -/
structure AdditionalData where
  username : Option String := none
deriving DecidableEq

/-- The `VerificationCode` entity. -/
structure VerificationCode where
  id : Nat
  code : String
  identifier : String
  authMethod : AuthMethodType
  purpose : String
  expiresAt : Nat
  isUsed : Bool
  createdAt : Nat
  metadata : Option AdditionalData := none
deriving DecidableEq

/-- A `{primary, secondary}` value pair inside `MergeConflicts`. -/
structure ConflictPair where
  primary : String
  secondary : String
deriving DecidableEq

/-- `MergeConflicts`: the fields `detectConflicts` of `MultiAuthService`
can populate (`email` and `phone`). -/
structure MergeConflicts where
  email : Option ConflictPair := none
  phone : Option ConflictPair := none
deriving DecidableEq

/-- `Object.keys(conflicts).length` for a `MergeConflicts` value. -/
def MergeConflicts.keysCount (c : MergeConflicts) : Nat :=
  (if c.email.isSome then 1 else 0) + (if c.phone.isSome then 1 else 0)

/-- `MergeResolution` is opaque to the service: it is stored on the merge
request and passed to `performAccountMerge`, which never inspects it.
Modelled as a list of per-field winner choices. -/
structure MergeResolution where
  choices : List (String × String) := []
deriving DecidableEq

/-- Merge request status column (string literals in the source). -/
inductive MergeStatus
  | pending
  | resolved
  | rejected
  | expired
deriving DecidableEq

/-- The `AccountMergeRequest` entity. -/
structure MergeRequest where
  id : Nat
  primaryUserId : Nat
  secondaryUserId : Nat
  authMethod : AuthMethodType
  conflicts : MergeConflicts
  status : MergeStatus
  resolution : Option MergeResolution := none
  expiresAt : Nat
  resolvedAt : Option Nat := none
deriving DecidableEq

/-- A `Role` row (RBAC collaborator). -/
structure Role where
  id : Nat
  name : String
deriving DecidableEq

/-- A `UserRoleAssignment` row. -/
structure RoleAssignment where
  userId : Nat
  roleId : Nat
deriving DecidableEq

/-- The persistent state: one list per repository, plus id counters. -/
structure DB where
  users : List User := []
  codes : List VerificationCode := []
  mergeRequests : List MergeRequest := []
  roleAssignments : List RoleAssignment := []
  nextUserId : Nat := 1
  nextCodeId : Nat := 1
  nextMergeId : Nat := 1
deriving DecidableEq

/-- The `AuthResult` interface returned by the public operations. -/
structure AuthResult where
  success : Bool
  user : Option User := none
  error : Option String := none
  requiresMerge : Bool := false
  mergeRequestId : Option Nat := none
  conflicts : Option MergeConflicts := none
  requiresVerification : Bool := false
  verificationCode : Option String := none
deriving DecidableEq

/-- Update the first element satisfying `p` by `f`; models a TypeORM `save`
of the row previously fetched by `findOne` with the same predicate. -/
def updateFirst (p : α → Bool) (f : α → α) : List α → List α
  | [] => []
  | x :: xs => if p x then f x :: xs else x :: updateFirst p f xs

/-- The `where` condition built by `findUserByIdentifier`: exact equality
on the column selected by the auth method. -/
def identifierMatches (authMethod : AuthMethodType) (identifier : String)
    (u : User) : Bool :=
  match authMethod with
  | AuthMethodType.EMAIL => decide (u.email = some identifier)
  | AuthMethodType.PHONE_WHATSAPP => decide (u.phone = some identifier)
  | AuthMethodType.PHONE_TELEGRAM => decide (u.phone = some identifier)
  | AuthMethodType.GITHUB => decide (u.githubId = some identifier)
  | AuthMethodType.GOSUSLUGI => decide (u.gosuslugiId = some identifier)
  | AuthMethodType.VKONTAKTE => decide (u.vkontakteId = some identifier)

/-- `MultiAuthService.findUserByIdentifier`: builds a `where` condition on
the column selected by the auth method and runs `findOne`. -/
def findUserByIdentifier (authMethod : AuthMethodType) (identifier : String)
    (users : List User) : Option User :=
  users.find? (identifierMatches authMethod identifier)

/-- `MultiAuthService.requiresVerification`. -/
def requiresVerification (authMethod : AuthMethodType) : Bool :=
  match authMethod with
  | AuthMethodType.PHONE_WHATSAPP => true
  | AuthMethodType.PHONE_TELEGRAM => true
  | _ => false

/-- `MultiAuthService.createUser`: a fresh row with the method as primary
and sole available method, then the per-method field switch. The bcrypt
hashing of `password` is commented out in the source, so `passwordHash`
stays unset. -/
def createUser (authMethod : AuthMethodType) (identifier : String)
    (_pw : Option String) (additionalData : Option AdditionalData)
    (db : DB) : User × DB :=
  let base : User :=
    { id := db.nextUserId
      primaryAuthMethod := authMethod
      availableAuthMethods := [authMethod] }
  let user : User :=
    match authMethod with
    | AuthMethodType.EMAIL => { base with email := some identifier }
    | AuthMethodType.PHONE_WHATSAPP =>
        { base with phone := some identifier, phoneVerified := false }
    | AuthMethodType.PHONE_TELEGRAM =>
        { base with phone := some identifier, phoneVerified := false }
    | AuthMethodType.GITHUB =>
        { base with githubId := some identifier
                    githubUsername := additionalData.bind (·.username)
                    githubVerified := true }
    | AuthMethodType.GOSUSLUGI =>
        { base with gosuslugiId := some identifier, gosuslugiVerified := true }
    | AuthMethodType.VKONTAKTE =>
        { base with vkontakteId := some identifier, vkontakteVerified := true }
  (user, { db with users := db.users ++ [user], nextUserId := db.nextUserId + 1 })

/-- `MultiAuthService.generateVerificationCode`: persists a fresh record
with `expiresAt = now + 10 minutes` and returns it. The random 6-digit
draw is the explicit argument `newCode`. No rate-limit check of any kind
is performed. -/
def generateVerificationCode (authMethod : AuthMethodType)
    (identifier purpose : String) (newCode : String) (now : Nat)
    (metadata : Option AdditionalData) (db : DB) : VerificationCode × DB :=
  let vc : VerificationCode :=
    { id := db.nextCodeId
      code := newCode
      identifier := identifier
      authMethod := authMethod
      purpose := purpose
      expiresAt := now + 600
      isUsed := false
      createdAt := now
      metadata := metadata }
  (vc, { db with codes := db.codes ++ [vc], nextCodeId := db.nextCodeId + 1 })

/-- The `where` condition of `verifyCode`'s `findOne`: exact match on
(code, identifier, authMethod, purpose) with `isUsed = false`. -/
def codeMatches (code identifier : String) (authMethod : AuthMethodType)
    (purpose : String) (c : VerificationCode) : Bool :=
  decide (c.code = code) && decide (c.identifier = identifier) &&
  decide (c.authMethod = authMethod) && decide (c.purpose = purpose) &&
  decide (c.isUsed = false)

/-- `MultiAuthService.verifyCode`: find the single unused matching record;
`false` when absent or expired; otherwise mark it used and return `true`. -/
def verifyCode (code identifier : String) (authMethod : AuthMethodType)
    (purpose : String) (now : Nat) (db : DB) : Bool × DB :=
  match db.codes.find? (codeMatches code identifier authMethod purpose) with
  | none => (false, db)
  | some vc =>
    if vc.expiresAt < now then (false, db)
    else
      (true,
       { db with
           codes := updateFirst (codeMatches code identifier authMethod purpose)
             (fun c => { c with isUsed := true }) db.codes })

/-- `MultiAuthService.detectConflicts`: compares the column the incoming
method would set against the existing value; a conflict is recorded only
when the existing field is truthy (non-null, non-empty) and differs.
`additionalData` is in the signature but never read. -/
def detectConflicts (existingUser : User) (authMethod : AuthMethodType)
    (identifier : String) (_additionalData : Option AdditionalData) :
    MergeConflicts :=
  match authMethod with
  | AuthMethodType.EMAIL =>
    match existingUser.email with
    | some e =>
      if e ≠ "" && e ≠ identifier then
        { email := some ⟨e, identifier⟩ }
      else {}
    | none => {}
  | AuthMethodType.PHONE_WHATSAPP =>
    match existingUser.phone with
    | some p =>
      if p ≠ "" && p ≠ identifier then
        { phone := some ⟨p, identifier⟩ }
      else {}
    | none => {}
  | AuthMethodType.PHONE_TELEGRAM =>
    match existingUser.phone with
    | some p =>
      if p ≠ "" && p ≠ identifier then
        { phone := some ⟨p, identifier⟩ }
      else {}
    | none => {}
  | _ => {}

/-- `MultiAuthService.createMergeRequest`: persists a `pending` request
expiring 24 hours from now; `secondaryUserId` is temporarily set to the
primary user's id (per the source comment, until a second account exists). -/
def createMergeRequest (primaryUserId : Nat) (authMethod : AuthMethodType)
    (_identifier : String) (conflicts : MergeConflicts) (now : Nat)
    (db : DB) : MergeRequest × DB :=
  let mr : MergeRequest :=
    { id := db.nextMergeId
      primaryUserId := primaryUserId
      secondaryUserId := primaryUserId
      authMethod := authMethod
      conflicts := conflicts
      status := MergeStatus.pending
      expiresAt := now + 86400 }
  (mr, { db with mergeRequests := db.mergeRequests ++ [mr]
                 nextMergeId := db.nextMergeId + 1 })

/-- `MultiAuthService.register`: resolve by identifier; on a hit either
open a merge request (conflicts) or return the account as-is; on a miss
create the account and, for phone methods, issue a `registration` code. -/
def register (authMethod : AuthMethodType) (identifier : String)
    ( password : Option String) (additionalData : Option AdditionalData)
    (newCode : String) (now : Nat) (db : DB) : AuthResult × DB :=
  match findUserByIdentifier authMethod identifier db.users with
  | some existingUser =>
    let conflicts := detectConflicts existingUser authMethod identifier additionalData
    if conflicts.keysCount > 0 then
      let r := createMergeRequest existingUser.id authMethod identifier conflicts now db
      ({ success := false
         requiresMerge := true
         mergeRequestId := some r.1.id
         conflicts := some conflicts }, r.2)
    else
      ({ success := true, user := some existingUser }, db)
  | none =>
    let r := createUser authMethod identifier password additionalData db
    if requiresVerification authMethod then
      let g := generateVerificationCode authMethod identifier "registration"
        newCode now additionalData r.2
      ({ success := true
         user := some r.1
         requiresVerification := true
         verificationCode := some g.1.code }, g.2)
    else
      ({ success := true, user := some r.1 }, r.2)

/-- `MultiAuthService.login`: resolve the user; the bcrypt password
comparison for EMAIL is commented out in the source (no check happens); a
supplied (truthy) verification code must validate with purpose `login`;
the MFA block is a no-op. -/
def login (authMethod : AuthMethodType) (identifier : String)
    ( password verificationCode : Option String) (now : Nat) (db : DB) :
    AuthResult × DB :=
  match findUserByIdentifier authMethod identifier db.users with
  | none => ({ success := false, error := some "Пользователь не найден" }, db)
  | some user =>
    match verificationCode with
    | some vc =>
      if vc ≠ "" then
        let r := verifyCode vc identifier authMethod "login" now db
        if r.1 then ({ success := true, user := some user }, r.2)
        else ({ success := false, error := some "Неверный код верификации" }, r.2)
      else ({ success := true, user := some user }, db)
    | none => ({ success := true, user := some user }, db)

/-- `MultiAuthService.isAuthMethodBound`. -/
def isAuthMethodBound (user : User) (authMethod : AuthMethodType) : Bool :=
  user.availableAuthMethods.contains authMethod

/-- `usersRepo.save(user)` for a row previously fetched by id: update the
first row with the same id in place. -/
def saveUser (db : DB) (user : User) : DB :=
  { db with users :=
      updateFirst (fun u => decide (u.id = user.id)) (fun _ => user) db.users }

/-- `MultiAuthService.bindAuthMethodToUser` (the user mutation before
`save`): append the method if absent and set the method's identifier
column and verified flag. The EMAIL case sets no verified flag. -/
def bindAuthMethodToUser (user : User) (authMethod : AuthMethodType)
    (identifier : String) : User :=
  let user :=
    if user.availableAuthMethods.contains authMethod then user
    else { user with availableAuthMethods := user.availableAuthMethods ++ [authMethod] }
  match authMethod with
  | AuthMethodType.EMAIL => { user with email := some identifier }
  | AuthMethodType.PHONE_WHATSAPP =>
      { user with phone := some identifier, phoneVerified := true }
  | AuthMethodType.PHONE_TELEGRAM =>
      { user with phone := some identifier, phoneVerified := true }
  | AuthMethodType.GITHUB =>
      { user with githubId := some identifier, githubVerified := true }
  | AuthMethodType.GOSUSLUGI =>
      { user with gosuslugiId := some identifier, gosuslugiVerified := true }
  | AuthMethodType.VKONTAKTE =>
      { user with vkontakteId := some identifier, vkontakteVerified := true }

/-- `MultiAuthService.bindAuthMethod`: fail on missing user or
already-bound method; a supplied (truthy) code must validate with purpose
`binding`; then mutate and save the user. -/
def bindAuthMethod (userId : Nat) (authMethod : AuthMethodType)
    (identifier : String) (verificationCode : Option String) (now : Nat)
    (db : DB) : AuthResult × DB :=
  match db.users.find? (fun u => decide (u.id = userId)) with
  | none => ({ success := false, error := some "Пользователь не найден" }, db)
  | some user =>
    if isAuthMethodBound user authMethod then
      ({ success := false
         error := some "Этот метод аутентификации уже привязан" }, db)
    else
      let proceed := fun (db1 : DB) =>
        let user2 := bindAuthMethodToUser user authMethod identifier
        ({ success := true, user := some user2 }, saveUser db1 user2)
      match verificationCode with
      | some vc =>
        if vc ≠ "" then
          let r := verifyCode vc identifier authMethod "binding" now db
          if r.1 then proceed r.2
          else ({ success := false
                  error := some "Неверный код верификации" }, r.2)
        else proceed db
      | none => proceed db

/-- `MultiAuthService.getUserIdentifier`. -/
def getUserIdentifier (user : User) (authMethod : AuthMethodType) :
    Option String :=
  match authMethod with
  | AuthMethodType.EMAIL => user.email
  | AuthMethodType.PHONE_WHATSAPP => user.phone
  | AuthMethodType.PHONE_TELEGRAM => user.phone
  | AuthMethodType.GITHUB => user.githubId
  | AuthMethodType.GOSUSLUGI => user.gosuslugiId
  | AuthMethodType.VKONTAKTE => user.vkontakteId

/-- `MultiAuthService.unbindAuthMethodFromUser` (the user mutation before
`save`): filter the method out and clear its identifier column and
verified flag. -/
def unbindAuthMethodFromUser (user : User) (authMethod : AuthMethodType) :
    User :=
  let user :=
    { user with availableAuthMethods :=
        user.availableAuthMethods.filter (fun m => decide (m ≠ authMethod)) }
  match authMethod with
  | AuthMethodType.EMAIL => { user with email := none }
  | AuthMethodType.PHONE_WHATSAPP =>
      { user with phone := none, phoneVerified := false }
  | AuthMethodType.PHONE_TELEGRAM =>
      { user with phone := none, phoneVerified := false }
  | AuthMethodType.GITHUB =>
      { user with githubId := none, githubVerified := false }
  | AuthMethodType.GOSUSLUGI =>
      { user with gosuslugiId := none, gosuslugiVerified := false }
  | AuthMethodType.VKONTAKTE =>
      { user with vkontakteId := none, vkontakteVerified := false }

/-- `MultiAuthService.unbindAuthMethod`: fail on missing user; hard guard
`availableAuthMethods.length ≤ 1`; a supplied (truthy) code is checked
with purpose `unbinding` only when the user has a truthy identifier for
the method; then mutate and save the user. -/
def unbindAuthMethod (userId : Nat) (authMethod : AuthMethodType)
    (verificationCode : Option String) (now : Nat) (db : DB) :
    AuthResult × DB :=
  match db.users.find? (fun u => decide (u.id = userId)) with
  | none => ({ success := false, error := some "Пользователь не найден" }, db)
  | some user =>
    if user.availableAuthMethods.length ≤ 1 then
      ({ success := false
         error := some "Нельзя отвязать последний метод аутентификации" }, db)
    else
      let proceed := fun (db1 : DB) =>
        let user2 := unbindAuthMethodFromUser user authMethod
        ({ success := true, user := some user2 }, saveUser db1 user2)
      match verificationCode with
      | some vc =>
        if vc ≠ "" then
          match getUserIdentifier user authMethod with
          | some identifier =>
            if identifier ≠ "" then
              let r := verifyCode vc identifier authMethod "unbinding" now db
              if r.1 then proceed r.2
              else ({ success := false
                      error := some "Неверный код верификации" }, r.2)
            else proceed db
          | none => proceed db
        else proceed db
      | none => proceed db

/-- `MultiAuthService.performAccountMerge`: the source body is a stub
("Здесь должна быть логика слияния аккаунтов / Пока возвращаем основного
пользователя") — it only returns the request's `primaryUser` relation,
applying nothing from the resolution. -/
def performAccountMerge (db : DB) (mergeRequest : MergeRequest)
    (_resolution : MergeResolution) : Option User :=
  db.users.find? (fun u => decide (u.id = mergeRequest.primaryUserId))

/-- `MultiAuthService.mergeAccounts`: fail on missing request or
non-`pending` status (there is no `expiresAt` check); otherwise run
`performAccountMerge` and mark the request `resolved` with the resolution
and `resolvedAt = now`. -/
def mergeAccounts (mergeRequestId : Nat) (resolution : MergeResolution)
    (now : Nat) (db : DB) : AuthResult × DB :=
  match db.mergeRequests.find? (fun r => decide (r.id = mergeRequestId)) with
  | none => ({ success := false, error := some "Запрос на слияние не найден" }, db)
  | some mergeRequest =>
    if mergeRequest.status ≠ MergeStatus.pending then
      ({ success := false, error := some "Запрос на слияние уже обработан" }, db)
    else
      let mergedUser := performAccountMerge db mergeRequest resolution
      let mr2 := { mergeRequest with
                     status := MergeStatus.resolved
                     resolution := some resolution
                     resolvedAt := some now }
      let newRequests :=
        updateFirst (fun r => decide (r.id = mergeRequestId)) (fun _ => mr2)
          db.mergeRequests
      ({ success := true, user := mergedUser },
       { db with mergeRequests := newRequests })

/-- `GitHubAuthService.assignDefaultRoleToUser`: count users after the
creation; count = 1 means first user ever, who gets `super_admin` without
consulting the configured default role; everyone else gets the role named
by the settings service; a missing role is only logged and nothing is
assigned (the whole body is inside try/catch, so it never fails). -/
def assignDefaultRoleToUser (userId : Nat) (roles : List Role)
    (defaultUserRole : String) (db : DB) : DB :=
  let userCount := db.users.length
  let roleToAssign :=
    if userCount = 1 then
      roles.find? (fun r => decide (r.name = "super_admin"))
    else
      roles.find? (fun r => decide (r.name = defaultUserRole))
  match roleToAssign with
  | some role =>
      { db with roleAssignments := db.roleAssignments ++ [⟨userId, role.id⟩] }
  | none => db

/-- Modelled from the spec: `countRecentCodes(identifier, method,
windowSeconds)` — the measurement named by §4.2's rate-limit rule, which
has no counterpart in `MultiAuthService` (only the separate
`EmailTwoFactorService.checkRateLimit` counts recent codes). It counts
stored codes for the pair created strictly within the last `window`
seconds. -/
def countRecentCodes (db : DB) (identifier : String)
    (authMethod : AuthMethodType) (now window : Nat) : Nat :=
  (db.codes.filter fun c =>
    decide (c.identifier = identifier) && decide (c.authMethod = authMethod) &&
    decide (now < c.createdAt + window)).length

/-- The account invariant maintained by this subsystem: every persisted
user has a non-empty, duplicate-free `availableAuthMethods` list. -/
def AuthInvariant (db : DB) : Prop :=
  ∀ u ∈ db.users, u.availableAuthMethods ≠ [] ∧ u.availableAuthMethods.Nodup

/-! Concrete fixtures used by counterexamples and witnesses. -/

/-- A user whose only bound method is EMAIL. -/
def emailUser : User :=
  { id := 1
    email := some "user@example.com"
    primaryAuthMethod := AuthMethodType.EMAIL
    availableAuthMethods := [AuthMethodType.EMAIL] }

/-- A store holding exactly `emailUser`. -/
def c7db : DB := { users := [emailUser], nextUserId := 2 }

/-- An empty store. -/
def dbEmpty : DB := {}

/-- A recently issued phone code (helper for the rate-limit scenario). -/
def phoneCode (i : Nat) (digits : String) (t : Nat) : VerificationCode :=
  { id := i
    code := digits
    identifier := "79001234567"
    authMethod := AuthMethodType.PHONE_WHATSAPP
    purpose := "registration"
    expiresAt := t + 600
    isUsed := false
    createdAt := t }

/-- A store where three codes were already issued for the same
(identifier, method) pair within the last 60 seconds (at t = 10, 20, 30). -/
def c1db : DB :=
  { codes := [phoneCode 1 "111111" 10, phoneCode 2 "222222" 20,
              phoneCode 3 "333333" 30]
    nextCodeId := 4 }

/-- An unused, unexpired `login`-purpose code. -/
def loginCode : VerificationCode :=
  { id := 1
    code := "123456"
    identifier := "user@example.com"
    authMethod := AuthMethodType.EMAIL
    purpose := "login"
    expiresAt := 700
    isUsed := false
    createdAt := 100 }

/-- A store holding exactly `loginCode`. -/
def c2db : DB := { codes := [loginCode], nextCodeId := 2 }

/-- `c2db` after its code has been consumed. -/
def c2dbUsed : DB :=
  { codes := [{ loginCode with isUsed := true }], nextCodeId := 2 }

/-- An unused, unexpired code issued with purpose `registration`. -/
def regCode : VerificationCode :=
  { id := 1
    code := "123456"
    identifier := "79001234567"
    authMethod := AuthMethodType.PHONE_WHATSAPP
    purpose := "registration"
    expiresAt := 700
    isUsed := false
    createdAt := 100 }

/-- A store with `emailUser` (phone method unbound) and the
registration-purpose code `regCode`. -/
def c3db : DB :=
  { users := [emailUser], codes := [regCode], nextUserId := 2, nextCodeId := 2 }

/-- The primary account of the merge scenarios. -/
def mergeUser : User :=
  { id := 1
    email := some "old@x.com"
    primaryAuthMethod := AuthMethodType.EMAIL
    availableAuthMethods := [AuthMethodType.EMAIL] }

/-- A `pending` merge request whose `expiresAt = 100` has already passed
at the times used below. -/
def expiredPendingRequest : MergeRequest :=
  { id := 1
    primaryUserId := 1
    secondaryUserId := 1
    authMethod := AuthMethodType.EMAIL
    conflicts := { email := some ⟨"old@x.com", "new@x.com"⟩ }
    status := MergeStatus.pending
    expiresAt := 100 }

/-- A store with `mergeUser` and `expiredPendingRequest`. -/
def c4db : DB :=
  { users := [mergeUser], mergeRequests := [expiredPendingRequest]
    nextUserId := 2, nextMergeId := 2 }

/-- A resolution choosing the secondary side for the `email` conflict. -/
def sampleResolution : MergeResolution := ⟨[("email", "secondary")]⟩

/-- RBAC fixture roles. -/
def superAdminRole : Role := ⟨1, "super_admin"⟩

/-- The configured default role of the fixtures. -/
def memberRole : Role := ⟨2, "user"⟩

/-- The RBAC role table of the fixtures. -/
def rolesList : List Role := [superAdminRole, memberRole]

/-! Helper lemmas about `updateFirst` and `List.find?`. -/

theorem updateFirst_cons_pos {p : α → Bool} {f : α → α} {x : α} {xs : List α}
    (h : p x = true) : updateFirst p f (x :: xs) = f x :: xs := by
  simp [updateFirst, h]

theorem updateFirst_cons_neg {p : α → Bool} {f : α → α} {x : α} {xs : List α}
    (h : ¬ p x = true) : updateFirst p f (x :: xs) = x :: updateFirst p f xs := by
  simp [updateFirst, h]

/-- After updating the first match of `p` with a function that falsifies
`p`, no match of `p` is left when there was at most one to begin with. -/
theorem find?_updateFirst_eq_none {p : α → Bool} {f : α → α}
    (hpf : ∀ x, p x = true → p (f x) = false) :
    ∀ l : List α, (l.filter p).length ≤ 1 →
      (updateFirst p f l).find? p = none := by
  intro l
  induction l with
  | nil => intro _; rfl
  | cons x xs ih =>
    intro hlen
    by_cases hx : p x = true
    · rw [updateFirst_cons_pos hx, List.find?_cons_of_neg _ (by simp [hpf x hx])]
      rw [List.filter_cons_of_pos hx, List.length_cons] at hlen
      have hnil : xs.filter p = [] := by
        have : (xs.filter p).length = 0 := by omega
        exact List.length_eq_zero.mp this
      exact List.find?_eq_none.mpr (by
        intro y hy
        have := List.filter_eq_nil_iff.mp hnil y hy
        simpa using this)
    · rw [updateFirst_cons_neg hx, List.find?_cons_of_neg _ hx]
      rw [List.filter_cons_of_neg hx] at hlen
      exact ih hlen

/-- Any element of `updateFirst p f l` is an original element or the image
of a matching original element. -/
theorem mem_updateFirst {p : α → Bool} {f : α → α} {x : α} :
    ∀ {l : List α}, x ∈ updateFirst p f l →
      x ∈ l ∨ ∃ y ∈ l, p y = true ∧ x = f y := by
  intro l
  induction l with
  | nil => intro h; simp [updateFirst] at h
  | cons z zs ih =>
    intro h
    by_cases hz : p z = true
    · rw [updateFirst_cons_pos hz] at h
      rcases List.mem_cons.mp h with h | h
      · exact Or.inr ⟨z, List.mem_cons_self z zs, hz, h⟩
      · exact Or.inl (List.mem_cons_of_mem z h)
    · rw [updateFirst_cons_neg hz] at h
      rcases List.mem_cons.mp h with h | h
      · exact Or.inl (h ▸ List.mem_cons_self z zs)
      · rcases ih h with h | ⟨y, hy, hpy, hxy⟩
        · exact Or.inl (List.mem_cons_of_mem z h)
        · exact Or.inr ⟨y, List.mem_cons_of_mem z hy, hpy, hxy⟩

/-- The image of the record found by `find?` lands in `updateFirst`. -/
theorem mem_updateFirst_of_find? {p : α → Bool} {f : α → α} {r : α} :
    ∀ {l : List α}, l.find? p = some r → f r ∈ updateFirst p f l := by
  intro l
  induction l with
  | nil => intro h; simp at h
  | cons z zs ih =>
    intro h
    by_cases hz : p z = true
    · rw [List.find?_cons_of_pos _ hz] at h
      rw [updateFirst_cons_pos hz]
      injection h with h
      subst h
      exact List.mem_cons_self _ _
    · rw [List.find?_cons_of_neg _ hz] at h
      rw [updateFirst_cons_neg hz]
      exact List.mem_cons_of_mem z (ih h)

/-- Appending a match after a match-free list makes `find?` return it. -/
theorem find?_append_singleton {p : α → Bool} {u : α} (hu : p u = true) :
    ∀ {l : List α}, l.find? p = none → (l ++ [u]).find? p = some u := by
  intro l
  induction l with
  | nil => intro _; simp [List.find?_cons_of_pos _ hu]
  | cons z zs ih =>
    intro h
    by_cases hz : p z = true
    · rw [List.find?_cons_of_pos _ hz] at h; exact absurd h (by simp)
    · rw [List.find?_cons_of_neg _ hz] at h
      rw [List.cons_append, List.find?_cons_of_neg _ hz]
      exact ih h

/-- In a duplicate-free list, filtering one value away removes at most one
element. -/
theorem length_filter_ne [DecidableEq α] (a : α) :
    ∀ l : List α, l.Nodup →
      l.length - 1 ≤ (l.filter (fun x => decide (x ≠ a))).length := by
  intro l
  induction l with
  | nil => intro _; simp
  | cons x xs ih =>
    intro hnd
    rcases List.nodup_cons.mp hnd with ⟨hx, hxs⟩
    by_cases hxa : x = a
    · subst hxa
      rw [List.filter_cons_of_neg (by simp)]
      have : xs.filter (fun y => decide (y ≠ x)) = xs :=
        List.filter_eq_self.mpr (by
          intro y hy
          simp only [decide_eq_true_eq]
          exact fun hyx => hx (hyx ▸ hy))
      rw [this]; simp
    · rw [List.filter_cons_of_pos (by simpa using hxa)]
      have := ih hxs
      simp only [List.length_cons]
      omega

/-! Helper lemmas about the embedded operations. -/

theorem createUser_users (m : AuthMethodType) (idf : String)
    (pw : Option String) (ad : Option AdditionalData) (db : DB) :
    (createUser m idf pw ad db).2.users
      = db.users ++ [(createUser m idf pw ad db).1] := by
  cases m <;> rfl

theorem createUser_roleAssignments (m : AuthMethodType) (idf : String)
    (pw : Option String) (ad : Option AdditionalData) (db : DB) :
    (createUser m idf pw ad db).2.roleAssignments = db.roleAssignments := by
  cases m <;> rfl

theorem createUser_mergeRequests (m : AuthMethodType) (idf : String)
    (pw : Option String) (ad : Option AdditionalData) (db : DB) :
    (createUser m idf pw ad db).2.mergeRequests = db.mergeRequests := by
  cases m <;> rfl

theorem createUser_methods (m : AuthMethodType) (idf : String)
    (pw : Option String) (ad : Option AdditionalData) (db : DB) :
    (createUser m idf pw ad db).1.availableAuthMethods = [m] := by
  cases m <;> rfl

theorem identifierMatches_createUser (m : AuthMethodType) (idf : String)
    (pw : Option String) (ad : Option AdditionalData) (db : DB) :
    identifierMatches m idf (createUser m idf pw ad db).1 = true := by
  cases m <;> simp [createUser, identifierMatches]

theorem detectConflicts_createUser (m : AuthMethodType) (idf : String)
    (pw : Option String) (ad ad2 : Option AdditionalData) (db : DB) :
    (detectConflicts (createUser m idf pw ad db).1 m idf ad2).keysCount = 0 := by
  cases m <;> simp [createUser, detectConflicts, MergeConflicts.keysCount]

theorem verifyCode_users (code identifier : String) (m : AuthMethodType)
    (purpose : String) (now : Nat) (db : DB) :
    (verifyCode code identifier m purpose now db).2.users = db.users := by
  unfold verifyCode
  cases db.codes.find? (codeMatches code identifier m purpose) <;> simp
  split <;> rfl

theorem register_roleAssignments (m : AuthMethodType) (idf : String)
    (pw : Option String) (ad : Option AdditionalData) (newCode : String)
    (now : Nat) (db : DB) :
    (register m idf pw ad newCode now db).2.roleAssignments
      = db.roleAssignments := by
  unfold register
  cases hf : findUserByIdentifier m idf db.users with
  | some u =>
    by_cases hc : (detectConflicts u m idf ad).keysCount > 0 <;>
      simp [hc, createMergeRequest]
  | none =>
    by_cases hv : requiresVerification m = true <;>
      simp [hv, generateVerificationCode, createUser_roleAssignments]

/-! Claim theorems. -/

/-- C10: for the EMAIL method, `login` is independent of the supplied
password: two calls differing only in the password value (including a
wrong one) return identical results and states, because the bcrypt
comparison against the stored hash is commented out in the source. -/
theorem c10_login_password_independent (identifier : String)
    (pw1 pw2 verificationCode : Option String) (now : Nat) (db : DB) :
    login AuthMethodType.EMAIL identifier pw1 verificationCode now db
      = login AuthMethodType.EMAIL identifier pw2 verificationCode now db := rfl

/-- C1 counterexample: with three codes already issued for
("79001234567", PHONE_WHATSAPP) within the last 60 seconds, a fourth
`generateVerificationCode` call still succeeds and persists a fourth code
instead of failing with `RateLimited`. -/
theorem c1_counterexample :
    3 ≤ countRecentCodes c1db "79001234567" AuthMethodType.PHONE_WHATSAPP 40 60
    ∧ (generateVerificationCode AuthMethodType.PHONE_WHATSAPP "79001234567"
         "registration" "444444" 40 none c1db).2.codes.length = 4
    ∧ (generateVerificationCode AuthMethodType.PHONE_WHATSAPP "79001234567"
         "registration" "444444" 40 none c1db).1.isUsed = false := by
  exact ⟨by decide, by decide, rfl⟩

/-- C1 (amended): `generateVerificationCode` performs no rate-limit check
at all: even when 3 or more codes were already issued for the same
(identifier, method) within the last 60 seconds, issuance succeeds and
persists exactly one new unused code with the requested digits. -/
theorem c1_no_rate_limit (db : DB) (authMethod : AuthMethodType)
    (identifier purpose newCode : String) (now : Nat)
    (metadata : Option AdditionalData)
    (hrecent : 3 ≤ countRecentCodes db identifier authMethod now 60) :
    (generateVerificationCode authMethod identifier purpose newCode now
        metadata db).2.codes.length = db.codes.length + 1
    ∧ (generateVerificationCode authMethod identifier purpose newCode now
        metadata db).1.isUsed = false
    ∧ (generateVerificationCode authMethod identifier purpose newCode now
        metadata db).1.code = newCode := by
  refine ⟨?_, rfl, rfl⟩
  simp [generateVerificationCode]

/-- C1 witness: the amended theorem applied to the concrete three-recent-
codes store. -/
theorem c1_witness :
    (generateVerificationCode AuthMethodType.PHONE_WHATSAPP "79001234567"
        "registration" "555555" 40 none c1db).2.codes.length
      = c1db.codes.length + 1 :=
  (c1_no_rate_limit c1db AuthMethodType.PHONE_WHATSAPP "79001234567"
    "registration" "555555" 40 none (by decide)).1

/-- C5 (code-bug evidence): on a live `pending` merge request whose
resolution picks the secondary email, `mergeAccounts` reports success but
returns the primary account unchanged and mutates no stored user —
`performAccountMerge` is a stub that ignores the resolution. -/
theorem c5_merge_stub :
    (mergeAccounts 1 sampleResolution 50 c4db).1.success = true
    ∧ (mergeAccounts 1 sampleResolution 50 c4db).1.user = some mergeUser
    ∧ (mergeAccounts 1 sampleResolution 50 c4db).2.users = c4db.users
    ∧ mergeUser.email = some "old@x.com" := by
  exact ⟨by decide, by decide, by decide, rfl⟩

/-- C7 counterexample: "User@Example.com" and "user@example.com" differ
only in letter case, yet only the exact stored spelling resolves the
account: `findUserByIdentifier` lower-cases nothing. -/
theorem c7_counterexample :
    "User@Example.com".data.map Char.toLower = "user@example.com".data
    ∧ findUserByIdentifier AuthMethodType.EMAIL "user@example.com" c7db.users
        = some emailUser
    ∧ findUserByIdentifier AuthMethodType.EMAIL "User@Example.com" c7db.users
        = none := by
  exact ⟨by decide, by decide, by decide⟩

/-- C7 (amended): the EMAIL lookup compares the identifier exactly and
case-sensitively: any account `findUserByIdentifier` returns stores
precisely the queried string as its email. -/
theorem c7_exact_email_lookup (users : List User) (identifier : String)
    (u : User)
    (hfound : findUserByIdentifier AuthMethodType.EMAIL identifier users
      = some u) :
    u.email = some identifier := by
  have h := List.find?_some hfound
  simpa [identifierMatches] using h

/-- C7 witness: the amended theorem applied to the concrete store. -/
theorem c7_witness : emailUser.email = some "user@example.com" :=
  c7_exact_email_lookup c7db.users "user@example.com" emailUser (by decide)

/-- C9 counterexample: creating the very first account of an empty system
through `register` assigns no role at all — `register` never calls the
role-assignment bridge, which exists only in the GitHub OAuth path. -/
theorem c9_counterexample :
    (register AuthMethodType.EMAIL "first@x.com" none none "123456" 0
        dbEmpty).2.users.length = 1
    ∧ (register AuthMethodType.EMAIL "first@x.com" none none "123456" 0
        dbEmpty).2.roleAssignments = [] := by
  exact ⟨by decide, by decide⟩

/-- C9 (amended): `register` leaves role assignments untouched; only the
GitHub flow's `assignDefaultRoleToUser` assigns roles: when the
post-creation user count is 1 it assigns `super_admin` without consulting
the configured default role (the outcome is independent of that setting),
otherwise it looks up the configured default role; a missing role leads to
no assignment and no failure. -/
theorem c9_role_assignment :
    (∀ (authMethod : AuthMethodType) (identifier : String)
       (pw : Option String) (ad : Option AdditionalData) (newCode : String)
       (now : Nat) (db : DB),
       (register authMethod identifier pw ad newCode now db).2.roleAssignments
         = db.roleAssignments)
    ∧ (∀ (userId : Nat) (roles : List Role) (name1 name2 : String) (db : DB),
         db.users.length = 1 →
         assignDefaultRoleToUser userId roles name1 db
           = assignDefaultRoleToUser userId roles name2 db)
    ∧ (∀ (userId : Nat) (roles : List Role) (name : String) (db : DB)
         (role : Role), db.users.length = 1 →
         roles.find? (fun r => decide (r.name = "super_admin")) = some role →
         assignDefaultRoleToUser userId roles name db
           = { db with roleAssignments :=
                 db.roleAssignments ++ [⟨userId, role.id⟩] })
    ∧ (∀ (userId : Nat) (roles : List Role) (name : String) (db : DB),
         db.users.length ≠ 1 →
         roles.find? (fun r => decide (r.name = name)) = none →
         assignDefaultRoleToUser userId roles name db = db)
    ∧ (∀ (userId : Nat) (roles : List Role) (name : String) (db : DB),
         db.users.length = 1 →
         roles.find? (fun r => decide (r.name = "super_admin")) = none →
         assignDefaultRoleToUser userId roles name db = db) := by
  refine ⟨register_roleAssignments, ?_, ?_, ?_, ?_⟩
  · intro userId roles name1 name2 db h
    simp [assignDefaultRoleToUser, h]
  · intro userId roles name db role h hfind
    simp [assignDefaultRoleToUser, h, hfind]
  · intro userId roles name db h hfind
    simp [assignDefaultRoleToUser, h, hfind]
  · intro userId roles name db h hfind
    simp [assignDefaultRoleToUser, h, hfind]

/-- C9 witness: the only account of the store is the first one, so the
super_admin role is assigned regardless of the configured default role. -/
theorem c9_witness :
    assignDefaultRoleToUser 1 rolesList "user" c7db
      = { c7db with roleAssignments :=
            c7db.roleAssignments ++ [⟨1, superAdminRole.id⟩] } :=
  c9_role_assignment.2.2.1 1 rolesList "user" c7db superAdminRole
    (by decide) (by decide)

theorem verifyCode_of_find?_none (code identifier : String)
    (m : AuthMethodType) (purpose : String) (now : Nat) (db : DB)
    (h : db.codes.find? (codeMatches code identifier m purpose) = none) :
    verifyCode code identifier m purpose now db = (false, db) := by
  simp [verifyCode, h]

theorem codeMatches_mark_false (code identifier : String)
    (m : AuthMethodType) (purpose : String) :
    ∀ c, codeMatches code identifier m purpose c = true →
      codeMatches code identifier m purpose { c with isUsed := true } = false := by
  intro c _
  simp [codeMatches]

/-- C2: a consumed verification code cannot be consumed again: once
`verifyCode` has returned `true`, the matching stored record is marked
used and every later call with the same (code, identifier, method,
purpose) returns `false`. The hypothesis is §3's invariant that at most
one valid record matches the tuple. -/
theorem c2_code_single_use (db db' : DB) (now later : Nat)
    (code identifier : String) (authMethod : AuthMethodType)
    (purpose : String)
    (h1 : (db.codes.filter
        (codeMatches code identifier authMethod purpose)).length ≤ 1)
    (h2 : verifyCode code identifier authMethod purpose now db = (true, db')) :
    (∀ c ∈ db'.codes, c.code = code → c.identifier = identifier →
       c.authMethod = authMethod → c.purpose = purpose → c.isUsed = true)
    ∧ verifyCode code identifier authMethod purpose later db'
        = (false, db') := by
  unfold verifyCode at h2
  cases hf : db.codes.find? (codeMatches code identifier authMethod purpose) with
  | none => rw [hf] at h2; simp at h2
  | some vc =>
    rw [hf] at h2
    dsimp only at h2
    by_cases hexp : vc.expiresAt < now
    · rw [if_pos hexp] at h2; simp at h2
    · rw [if_neg hexp] at h2
      injection h2 with _ h2
      subst h2
      have hnone : (updateFirst (codeMatches code identifier authMethod purpose)
          (fun c => { c with isUsed := true }) db.codes).find?
            (codeMatches code identifier authMethod purpose) = none :=
        find?_updateFirst_eq_none
          (codeMatches_mark_false code identifier authMethod purpose)
          db.codes h1
      constructor
      · intro c hc hcode hidf hm hp
        have hnc := List.find?_eq_none.mp hnone c hc
        simpa [codeMatches, hcode, hidf, hm, hp] using hnc
      · simp [verifyCode, hnone]

/-- C2 witness: the single-use theorem applied to a store holding one
unused, unexpired `login` code. -/
theorem c2_witness :
    (∀ c ∈ c2dbUsed.codes, c.code = "123456" →
       c.identifier = "user@example.com" →
       c.authMethod = AuthMethodType.EMAIL → c.purpose = "login" →
       c.isUsed = true)
    ∧ verifyCode "123456" "user@example.com" AuthMethodType.EMAIL "login" 300
        c2dbUsed = (false, c2dbUsed) :=
  c2_code_single_use c2db c2dbUsed 200 300 "123456" "user@example.com"
    AuthMethodType.EMAIL "login" (by decide) (by decide)

/-- C3: codes are purpose-scoped: when every stored unused record with the
given digits, identifier and method was issued for `registration`, a
`login` or `binding` check returns `false`, and `bindAuthMethod` supplied
with those digits fails with the invalid-verification-code error and
changes nothing. -/
theorem c3_purpose_scoped (db : DB) (now : Nat) (codeStr identifier : String)
    (authMethod : AuthMethodType) (userId : Nat) (user : User)
    (hreg : ∀ c ∈ db.codes, c.code = codeStr → c.identifier = identifier →
       c.authMethod = authMethod → c.isUsed = false →
       c.purpose = "registration")
    (hfind : db.users.find? (fun u => decide (u.id = userId)) = some user)
    (hunbound : isAuthMethodBound user authMethod = false)
    (hne : codeStr ≠ "") :
    verifyCode codeStr identifier authMethod "login" now db = (false, db)
    ∧ verifyCode codeStr identifier authMethod "binding" now db = (false, db)
    ∧ bindAuthMethod userId authMethod identifier (some codeStr) now db
        = ({ success := false
             error := some "Неверный код верификации" }, db) := by
  have hnone : ∀ p : String, p ≠ "registration" →
      db.codes.find? (codeMatches codeStr identifier authMethod p) = none := by
    intro p hp
    apply List.find?_eq_none.mpr
    intro c hc hmatch
    simp only [codeMatches, Bool.and_eq_true, decide_eq_true_eq] at hmatch
    obtain ⟨⟨⟨⟨hcode, hidf⟩, hm⟩, hpurp⟩, hused⟩ := hmatch
    exact hp (hpurp.symm.trans (hreg c hc hcode hidf hm hused))
  have hlogin := verifyCode_of_find?_none codeStr identifier authMethod
    "login" now db (hnone "login" (by decide))
  have hbinding := verifyCode_of_find?_none codeStr identifier authMethod
    "binding" now db (hnone "binding" (by decide))
  refine ⟨hlogin, hbinding, ?_⟩
  simp [bindAuthMethod, hfind, hunbound, hne, hbinding]

/-- C3 witness: the purpose-scoping theorem applied to a store holding one
registration-purpose code and a user without the phone method. -/
theorem c3_witness :
    verifyCode "123456" "79001234567" AuthMethodType.PHONE_WHATSAPP "login"
        200 c3db = (false, c3db)
    ∧ verifyCode "123456" "79001234567" AuthMethodType.PHONE_WHATSAPP
        "binding" 200 c3db = (false, c3db)
    ∧ bindAuthMethod 1 AuthMethodType.PHONE_WHATSAPP "79001234567"
        (some "123456") 200 c3db
        = ({ success := false
             error := some "Неверный код верификации" }, c3db) :=
  c3_purpose_scoped c3db 200 "123456" "79001234567"
    AuthMethodType.PHONE_WHATSAPP 1 emailUser
    (by decide) (by decide) (by decide) (by decide)

/-- C4 counterexample: `mergeAccounts` resolves a `pending` request whose
`expiresAt = 100` already lies before the current time 200: it reports
success and flips the status to `resolved` instead of failing with an
`Expired` error. -/
theorem c4_counterexample :
    expiredPendingRequest.expiresAt < 200
    ∧ (mergeAccounts 1 sampleResolution 200 c4db).1.success = true
    ∧ ∃ r ∈ (mergeAccounts 1 sampleResolution 200 c4db).2.mergeRequests,
        r.id = 1 ∧ r.status = MergeStatus.resolved ∧ r.resolvedAt = some 200 := by
  exact ⟨by decide, by decide, by decide⟩

/-- C4 (amended): `mergeAccounts` checks only existence and `pending`
status — there is no expiry check: a pending request whose `expiresAt` has
already passed is resolved normally (success, users untouched, status set
to `resolved` with `resolvedAt = now`), for every resolution content. -/
theorem c4_no_expiry_check (db : DB) (mergeRequestId : Nat)
    (resolution : MergeResolution) (now : Nat) (mr : MergeRequest)
    (hfind : db.mergeRequests.find? (fun r => decide (r.id = mergeRequestId))
      = some mr)
    (hpending : mr.status = MergeStatus.pending)
    (hexpired : mr.expiresAt < now) :
    (mergeAccounts mergeRequestId resolution now db).1.success = true
    ∧ (mergeAccounts mergeRequestId resolution now db).2.users = db.users
    ∧ ({ mr with
          status := MergeStatus.resolved,
          resolution := some resolution,
          resolvedAt := some now } : MergeRequest)
        ∈ (mergeAccounts mergeRequestId resolution now db).2.mergeRequests := by
  have heq : mergeAccounts mergeRequestId resolution now db
      = ({ success := true, user := performAccountMerge db mr resolution },
         { db with mergeRequests :=
             updateFirst (fun r => decide (r.id = mergeRequestId)) (fun _ =>
               { mr with
                 status := MergeStatus.resolved,
                 resolution := some resolution,
                 resolvedAt := some now }) db.mergeRequests }) := by
    simp [mergeAccounts, hfind, hpending]
  rw [heq]
  exact ⟨rfl, rfl, mem_updateFirst_of_find? hfind⟩

/-- C4 witness: the amended theorem applied to the concrete expired
pending request. -/
theorem c4_witness :
    (mergeAccounts 1 sampleResolution 200 c4db).1.success = true
    ∧ (mergeAccounts 1 sampleResolution 200 c4db).2.users = c4db.users
    ∧ ({ expiredPendingRequest with
          status := MergeStatus.resolved,
          resolution := some sampleResolution,
          resolvedAt := some 200 } : MergeRequest)
        ∈ (mergeAccounts 1 sampleResolution 200 c4db).2.mergeRequests :=
  c4_no_expiry_check c4db 1 sampleResolution 200 expiredPendingRequest
    (by decide) rfl (by decide)

theorem unbindAuthMethodFromUser_methods (user : User) (m : AuthMethodType) :
    (unbindAuthMethodFromUser user m).availableAuthMethods
      = user.availableAuthMethods.filter (fun x => decide (x ≠ m)) := by
  cases m <;> rfl

theorem bindAuthMethodToUser_methods (user : User) (m : AuthMethodType)
    (idf : String) :
    (bindAuthMethodToUser user m idf).availableAuthMethods
      = (if m ∈ user.availableAuthMethods then user.availableAuthMethods
         else user.availableAuthMethods ++ [m]) := by
  by_cases h : m ∈ user.availableAuthMethods <;>
    cases m <;> simp [bindAuthMethodToUser, h]

theorem AuthInvariant_of_users_eq {db1 db2 : DB} (h : db2.users = db1.users)
    (hinv : AuthInvariant db1) : AuthInvariant db2 := by
  intro u hu
  rw [h] at hu
  exact hinv u hu

theorem AuthInvariant_saveUser {db : DB} (hinv : AuthInvariant db)
    (user2 : User)
    (h2 : user2.availableAuthMethods ≠ [] ∧ user2.availableAuthMethods.Nodup) :
    AuthInvariant (saveUser db user2) := by
  intro u hu
  dsimp [saveUser] at hu
  rcases mem_updateFirst hu with h | ⟨y, _, _, hxy⟩
  · exact hinv u h
  · rw [hxy]
    exact h2

theorem mergeAccounts_users (mergeRequestId : Nat)
    (resolution : MergeResolution) (now : Nat) (db : DB) :
    (mergeAccounts mergeRequestId resolution now db).2.users = db.users := by
  unfold mergeAccounts
  cases db.mergeRequests.find? (fun r => decide (r.id = mergeRequestId)) with
  | none => rfl
  | some mr =>
    dsimp only
    by_cases h : mr.status ≠ MergeStatus.pending
    · rw [if_pos h]
    · rw [if_neg h]

/-- C6: the last auth method cannot be unbound: with at most one available
method, `unbindAuthMethod` fails with the invariant error and leaves the
store untouched; moreover the non-empty (duplicate-free)
`availableAuthMethods` invariant is preserved by every mutating operation
of the subsystem, so a persisted account never ends up with no method. -/
theorem c6_last_method_invariant (db : DB) (hinv : AuthInvariant db) :
    (∀ (userId : Nat) (authMethod : AuthMethodType)
       (verificationCode : Option String) (now : Nat) (user : User),
       db.users.find? (fun u => decide (u.id = userId)) = some user →
       user.availableAuthMethods.length ≤ 1 →
       unbindAuthMethod userId authMethod verificationCode now db
         = ({ success := false
              error := some "Нельзя отвязать последний метод аутентификации" },
            db))
    ∧ (∀ (userId : Nat) (authMethod : AuthMethodType)
         (verificationCode : Option String) (now : Nat),
         AuthInvariant
           (unbindAuthMethod userId authMethod verificationCode now db).2)
    ∧ (∀ (userId : Nat) (authMethod : AuthMethodType) (identifier : String)
         (verificationCode : Option String) (now : Nat),
         AuthInvariant
           (bindAuthMethod userId authMethod identifier verificationCode now
             db).2)
    ∧ (∀ (authMethod : AuthMethodType) (identifier : String)
         (pw : Option String) (ad : Option AdditionalData) (newCode : String)
         (now : Nat),
         AuthInvariant (register authMethod identifier pw ad newCode now db).2)
    ∧ (∀ (mergeRequestId : Nat) (resolution : MergeResolution) (now : Nat),
         AuthInvariant (mergeAccounts mergeRequestId resolution now db).2) := by
  refine ⟨?_, ?_, ?_, ?_, ?_⟩
  · intro userId authMethod verificationCode now user hf hlen
    simp [unbindAuthMethod, hf, hlen]
  · intro userId authMethod verificationCode now
    unfold unbindAuthMethod
    cases hf : db.users.find? (fun u => decide (u.id = userId)) with
    | none => exact hinv
    | some user =>
      dsimp only
      by_cases hlen : user.availableAuthMethods.length ≤ 1
      · rw [if_pos hlen]; exact hinv
      · rw [if_neg hlen]
        have huser : user ∈ db.users := List.mem_of_find?_eq_some hf
        obtain ⟨hne, hnd⟩ := hinv user huser
        have h2 : (unbindAuthMethodFromUser user
              authMethod).availableAuthMethods ≠ []
            ∧ (unbindAuthMethodFromUser user
                authMethod).availableAuthMethods.Nodup := by
          rw [unbindAuthMethodFromUser_methods]
          refine ⟨?_, hnd.filter _⟩
          have hflt := length_filter_ne authMethod user.availableAuthMethods hnd
          have hpos : 0 < (user.availableAuthMethods.filter
              (fun x => decide (x ≠ authMethod))).length := by omega
          exact List.ne_nil_of_length_pos hpos
        have hsave : ∀ db1 : DB, db1.users = db.users →
            AuthInvariant
              (saveUser db1 (unbindAuthMethodFromUser user authMethod)) := by
          intro db1 hdb1
          exact AuthInvariant_saveUser (AuthInvariant_of_users_eq hdb1 hinv) _ h2
        cases verificationCode with
        | none => exact hsave db rfl
        | some vc =>
          dsimp only
          by_cases hvc : vc ≠ ""
          · rw [if_pos hvc]
            cases hgi : getUserIdentifier user authMethod with
            | none => exact hsave db rfl
            | some identifier =>
              dsimp only
              by_cases hid : identifier ≠ ""
              · rw [if_pos hid]
                by_cases hr :
                    (verifyCode vc identifier authMethod "unbinding" now db).1
                      = true
                · rw [if_pos hr]
                  exact hsave _
                    (verifyCode_users vc identifier authMethod "unbinding" now db)
                · rw [if_neg hr]
                  exact AuthInvariant_of_users_eq
                    (verifyCode_users vc identifier authMethod "unbinding" now db)
                    hinv
              · rw [if_neg hid]; exact hsave db rfl
          · rw [if_neg hvc]; exact hsave db rfl
  · intro userId authMethod identifier verificationCode now
    unfold bindAuthMethod
    cases hf : db.users.find? (fun u => decide (u.id = userId)) with
    | none => exact hinv
    | some user =>
      dsimp only
      by_cases hb : isAuthMethodBound user authMethod = true
      · rw [if_pos hb]; exact hinv
      · rw [if_neg hb]
        have huser : user ∈ db.users := List.mem_of_find?_eq_some hf
        obtain ⟨hne, hnd⟩ := hinv user huser
        have hnotmem : authMethod ∉ user.availableAuthMethods := by
          simpa [isAuthMethodBound] using hb
        have h2 : (bindAuthMethodToUser user authMethod
              identifier).availableAuthMethods ≠ []
            ∧ (bindAuthMethodToUser user authMethod
                identifier).availableAuthMethods.Nodup := by
          rw [bindAuthMethodToUser_methods, if_neg hnotmem]
          constructor
          · simp
          · rw [← List.concat_eq_append]
            exact hnd.concat hnotmem
        have hsave : ∀ db1 : DB, db1.users = db.users →
            AuthInvariant
              (saveUser db1 (bindAuthMethodToUser user authMethod identifier)) := by
          intro db1 hdb1
          exact AuthInvariant_saveUser (AuthInvariant_of_users_eq hdb1 hinv) _ h2
        cases verificationCode with
        | none => exact hsave db rfl
        | some vc =>
          dsimp only
          by_cases hvc : vc ≠ ""
          · rw [if_pos hvc]
            by_cases hr :
                (verifyCode vc identifier authMethod "binding" now db).1 = true
            · rw [if_pos hr]
              exact hsave _
                (verifyCode_users vc identifier authMethod "binding" now db)
            · rw [if_neg hr]
              exact AuthInvariant_of_users_eq
                (verifyCode_users vc identifier authMethod "binding" now db) hinv
          · rw [if_neg hvc]; exact hsave db rfl
  · intro authMethod identifier pw ad newCode now
    unfold register
    cases hf : findUserByIdentifier authMethod identifier db.users with
    | some user =>
      dsimp only
      by_cases hc : (detectConflicts user authMethod identifier ad).keysCount > 0
      · rw [if_pos hc]
        exact AuthInvariant_of_users_eq rfl hinv
      · rw [if_neg hc]; exact hinv
    | none =>
      dsimp only
      have hcreate : AuthInvariant (createUser authMethod identifier pw ad db).2 := by
        intro u hu
        rw [createUser_users] at hu
        rcases List.mem_append.mp hu with h | h
        · exact hinv u h
        · have heq : u = (createUser authMethod identifier pw ad db).1 := by
            simpa using h
          rw [heq, createUser_methods]
          exact ⟨by simp, by simp⟩
      by_cases hv : requiresVerification authMethod = true
      · rw [if_pos hv]
        exact AuthInvariant_of_users_eq rfl hcreate
      · rw [if_neg hv]; exact hcreate
  · intro mergeRequestId resolution now
    exact AuthInvariant_of_users_eq
      (mergeAccounts_users mergeRequestId resolution now db) hinv

/-- C6 witness: unbinding the single EMAIL method of the one-method user
fails with the invariant error and leaves the store untouched. -/
theorem c6_witness :
    unbindAuthMethod 1 AuthMethodType.EMAIL none 0 c7db
      = ({ success := false
           error := some "Нельзя отвязать последний метод аутентификации" },
         c7db) :=
  (c6_last_method_invariant c7db (by unfold AuthInvariant; decide)).1 1
    AuthMethodType.EMAIL none 0 emailUser (by decide) (by decide)

/-- C8: re-registration is idempotent: when the identifier already
resolves to an account and no conflicts are detected, `register` returns
that account as-is without touching the store; and two `register` calls
with identical input on a fresh identifier return the same created
account, add exactly one account, create no merge request, and the second
call changes nothing. -/
theorem c8_idempotent_reregistration (db : DB) (authMethod : AuthMethodType)
    (identifier : String) (pw : Option String) (ad : Option AdditionalData)
    (newCode newCode2 : String) (now now2 : Nat) :
    (∀ user, findUserByIdentifier authMethod identifier db.users = some user →
       (detectConflicts user authMethod identifier ad).keysCount = 0 →
       register authMethod identifier pw ad newCode now db
         = ({ success := true, user := some user }, db))
    ∧ (findUserByIdentifier authMethod identifier db.users = none →
       ∃ u,
         (register authMethod identifier pw ad newCode now db).1.user = some u
         ∧ (register authMethod identifier pw ad newCode2 now2
             (register authMethod identifier pw ad newCode now db).2).1.user
             = some u
         ∧ (register authMethod identifier pw ad newCode2 now2
             (register authMethod identifier pw ad newCode now db).2).2
             = (register authMethod identifier pw ad newCode now db).2
         ∧ (register authMethod identifier pw ad newCode now db).2.users.length
             = db.users.length + 1
         ∧ (register authMethod identifier pw ad newCode now db).2.mergeRequests
             = db.mergeRequests) := by
  constructor
  · intro user hfind hnoc
    simp [register, hfind, hnoc]
  · intro hnone
    have hfst : (register authMethod identifier pw ad newCode now db).1.user
          = some (createUser authMethod identifier pw ad db).1
        ∧ (register authMethod identifier pw ad newCode now db).2.users
          = db.users ++ [(createUser authMethod identifier pw ad db).1]
        ∧ (register authMethod identifier pw ad newCode now db).2.mergeRequests
          = db.mergeRequests := by
      unfold register
      rw [hnone]
      dsimp only
      by_cases hv : requiresVerification authMethod = true
      · rw [if_pos hv]
        exact ⟨rfl, createUser_users authMethod identifier pw ad db,
               createUser_mergeRequests authMethod identifier pw ad db⟩
      · rw [if_neg hv]
        exact ⟨rfl, createUser_users authMethod identifier pw ad db,
               createUser_mergeRequests authMethod identifier pw ad db⟩
    have hfind2 : findUserByIdentifier authMethod identifier
        (register authMethod identifier pw ad newCode now db).2.users
        = some (createUser authMethod identifier pw ad db).1 := by
      rw [hfst.2.1]
      unfold findUserByIdentifier
      unfold findUserByIdentifier at hnone
      exact find?_append_singleton
        (identifierMatches_createUser authMethod identifier pw ad db) hnone
    have hsnd : ∀ db1 : DB,
        findUserByIdentifier authMethod identifier db1.users
          = some (createUser authMethod identifier pw ad db).1 →
        register authMethod identifier pw ad newCode2 now2 db1
          = ({ success := true
               user := some (createUser authMethod identifier pw ad db).1 },
             db1) := by
      intro db1 hfind1
      have hnoc := detectConflicts_createUser authMethod identifier pw ad ad db
      simp [register, hfind1, hnoc]
    refine ⟨(createUser authMethod identifier pw ad db).1, hfst.1, ?_, ?_, ?_,
      hfst.2.2⟩
    · rw [hsnd _ hfind2]
    · rw [hsnd _ hfind2]
    · rw [hfst.2.1]
      simp

/-- C8 witness: registering the same email twice on an empty store returns
the same account both times, creating one account and no merge request. -/
theorem c8_witness :
    ∃ u,
      (register AuthMethodType.EMAIL "a@x.com" none none "111111" 0
          dbEmpty).1.user = some u
      ∧ (register AuthMethodType.EMAIL "a@x.com" none none "222222" 5
          (register AuthMethodType.EMAIL "a@x.com" none none "111111" 0
            dbEmpty).2).1.user = some u
      ∧ (register AuthMethodType.EMAIL "a@x.com" none none "222222" 5
          (register AuthMethodType.EMAIL "a@x.com" none none "111111" 0
            dbEmpty).2).2
          = (register AuthMethodType.EMAIL "a@x.com" none none "111111" 0
              dbEmpty).2
      ∧ (register AuthMethodType.EMAIL "a@x.com" none none "111111" 0
          dbEmpty).2.users.length = dbEmpty.users.length + 1
      ∧ (register AuthMethodType.EMAIL "a@x.com" none none "111111" 0
          dbEmpty).2.mergeRequests = dbEmpty.mergeRequests :=
  (c8_idempotent_reregistration dbEmpty AuthMethodType.EMAIL "a@x.com" none
    none "111111" "222222" 0 5).2 (by decide)

end VselenaAuth
